import Mathlib

/-!
Verification development for the `code_agent` repository.

The definitions below are shallow embeddings of the Python sources:

* `src/code_agent/graph.py` — the LangGraph control loop (`AgentState`,
  `call_llm`, `should_continue`, `build_graph`), embedded here as a
  fuel-indexed recursive function `runGraph` over an explicit message list.
* `src/code_agent/main.py` — the `_FallbackLLM` returned by `create_llm`
  when the real backend cannot be initialised.
* `src/code_agent/file_generator.py` — `write_file`, embedded at the level
  of individual file-system operations so that interruption mid-write can
  be expressed as executing a prefix of the operation trace.
* `src/code_agent/tools/*.py` — the read/new/edit file tools, embedded as
  state-passing functions over an association-list file system.
* `src/code_agent/cli.py` — the `chat` command's per-input step
  (`_handle_command` plus the surrounding loop body).
* `src/code_agent/agents/base_agent.py` — `create_default_tools`.
* `src/code_agent/agents/persistent_agent.py` — `_load_state`,
  `_save_state` and `chat`.
-/

set_option autoImplicit false

namespace CodeAgent

/-! ### Messages (langchain_core.messages as used by graph.py)

A message is one of human / assistant (`AIMessage`) / tool-result
(`ToolMessage`).  Only assistant messages carry tool calls. -/

structure ToolCall where
  callId : String
  toolName : String
  args : List (String × String)
deriving DecidableEq, Repr

inductive Message where
  | human (content : String)
  | assistant (content : String) (toolCalls : List ToolCall)
  | toolResult (callId : String) (toolName : String) (content : String)
deriving DecidableEq, Repr

def Message.content : Message → String
  | .human c => c
  | .assistant c _ => c
  | .toolResult _ _ c => c

/-- `tool_calls` attribute: empty for non-assistant messages. -/
def Message.toolCalls : Message → List ToolCall
  | .assistant _ tcs => tcs
  | _ => []

/-- graph.py `AgentState`: a TypedDict with a single `messages` field. -/
structure AgentState where
  messages : List Message
deriving DecidableEq, Repr

/-- Python `messages[-1]` on a possibly-empty list. -/
def lastMessage? : List Message → Option Message
  | [] => none
  | [m] => some m
  | _ :: rest => lastMessage? rest

/-- graph.py `call_llm`: invoke the model on the full history and return
`{"messages": state["messages"] + [response]}`. -/
def call_llm (model : List Message → Message) (state : AgentState) : AgentState :=
  { messages := state.messages ++ [model state.messages] }

/-- The two routing outcomes of `should_continue`: the `"action"` node or
`END`. -/
inductive Route where
  | action
  | endRoute
deriving DecidableEq, Repr

/-- graph.py `should_continue`: route to `"action"` iff the last message is
an `AIMessage` whose `tool_calls` list is non-empty (Python truthiness of
`last.tool_calls`), otherwise `END`. -/
def should_continue (state : AgentState) : Route :=
  match lastMessage? state.messages with
  | some (Message.assistant _ (_ :: _)) => Route.action
  | _ => Route.endRoute

/-- Tool calls of the last message (what `ToolNode` dispatches on). -/
def lastToolCalls (state : AgentState) : List ToolCall :=
  match lastMessage? state.messages with
  | some m => m.toolCalls
  | none => []

/-- The `ToolNode("action")`: execute each requested tool call in order and
produce one tool-result message per request, carrying the call id and tool
name. `exec` abstracts the registry dispatch producing the status string. -/
def toolNode (exec : ToolCall → String) (tcs : List ToolCall) : List Message :=
  tcs.map (fun tc => Message.toolResult tc.callId tc.toolName (exec tc))

/-- The compiled graph of `build_graph`, run with explicit fuel: enter at
`"agent"` (`call_llm`), route with `should_continue`; on `"action"` append
the tool results and loop back to `"agent"`; on `END` stop.  Returns the
final state together with the number of model calls made, or `none` if the
fuel ran out. -/
def runGraph (model : List Message → Message) (exec : ToolCall → String) :
    Nat → AgentState → Option (AgentState × Nat)
  | 0, _ => none
  | fuel + 1, state =>
    let state1 := call_llm model state
    match should_continue state1 with
    | Route.endRoute => some (state1, 1)
    | Route.action =>
      match runGraph model exec fuel
          { messages := state1.messages ++ toolNode exec (lastToolCalls state1) } with
      | some (s, n) => some (s, n + 1)
      | none => none

/-- The turn's final output: text content of the last message. -/
def finalOutput (state : AgentState) : String :=
  match lastMessage? state.messages with
  | some m => m.content
  | none => ""

/-! ### main.py `_FallbackLLM`

When `ChatOllama` cannot be initialised, `create_llm` returns a fallback
model whose `_generate` ignores the input messages and returns an
`AIMessage` whose content is the `json.dumps` of an error record (the
embedding spells out the serialized string; the properties proved do not
depend on JSON escaping of the interpolated values), with no tool calls.
Its `bind_tools` returns the model itself. -/

def fallback_content (err base_url : String) : String :=
  "\x7b\"error\": \"LLM unavailable\", \"details\": \"Failed to initialise ChatOllama. Error: "
    ++ err ++ ". Base URL: " ++ base_url ++ ".\"\x7d"

def fallback_generate (err base_url : String) (_messages : List Message) : Message :=
  Message.assistant (fallback_content err base_url) []

/-! ### Control-loop lemmas -/

theorem lastMessage?_concat (l : List Message) (a : Message) :
    lastMessage? (l ++ [a]) = some a := by
  induction l with
  | nil => rfl
  | cons x xs ih =>
    cases xs with
    | nil => rfl
    | cons y ys => exact ih

theorem should_continue_endRoute (model : List Message → Message)
    (state : AgentState) (hempty : (model state.messages).toolCalls = []) :
    should_continue (call_llm model state) = Route.endRoute := by
  unfold should_continue call_llm
  simp only [lastMessage?_concat]
  cases hm : model state.messages with
  | human c => rfl
  | assistant c tcs =>
    rw [hm] at hempty
    simp only [Message.toolCalls] at hempty
    subst hempty
    rfl
  | toolResult i n c => rfl

theorem runGraph_halts (model : List Message → Message) (exec : ToolCall → String)
    (state : AgentState) (fuel : Nat)
    (hempty : (model state.messages).toolCalls = []) :
    runGraph model exec (fuel + 1) state =
      some ({ messages := state.messages ++ [model state.messages] }, 1) := by
  simp only [runGraph, should_continue_endRoute model state hempty]
  rfl

theorem finalOutput_concat (l : List Message) (a : Message) :
    finalOutput { messages := l ++ [a] } = a.content := by
  unfold finalOutput
  rw [lastMessage?_concat]

/-- C1: after a model call, the loop routes to the tool-dispatch node
exactly when the appended assistant message carries at least one tool-call
request; otherwise it halts after that single model call and the turn's
final output is that message's text content. -/
theorem routing_after_model_call
    (model : List Message → Message) (exec : ToolCall → String)
    (state : AgentState) (fuel : Nat) :
    (should_continue (call_llm model state) = Route.action ↔
      ∃ c tc tcs, model state.messages = Message.assistant c (tc :: tcs)) ∧
    ((model state.messages).toolCalls = [] →
      runGraph model exec (fuel + 1) state =
        some ({ messages := state.messages ++ [model state.messages] }, 1) ∧
      finalOutput { messages := state.messages ++ [model state.messages] } =
        (model state.messages).content) := by
  constructor
  · unfold should_continue call_llm
    simp only [lastMessage?_concat]
    constructor
    · intro h
      cases hm : model state.messages with
      | human c => rw [hm] at h; exact absurd h (by simp)
      | assistant c tcs =>
        cases tcs with
        | nil => rw [hm] at h; exact absurd h (by simp)
        | cons tc rest => exact ⟨c, tc, rest, rfl⟩
      | toolResult i n c => rw [hm] at h; exact absurd h (by simp)
    · rintro ⟨c, tc, tcs, hm⟩
      rw [hm]
  · intro hempty
    exact ⟨runGraph_halts model exec state fuel hempty,
      finalOutput_concat state.messages (model state.messages)⟩

/-- Witness for C1 at a concrete model that answers without tool calls. -/
theorem routing_after_model_call_witness :
    runGraph (fun _ => Message.assistant "done" []) (fun _ => "") 1
        { messages := [Message.human "hi"] } =
      some ({ messages := [Message.human "hi", Message.assistant "done" []] }, 1) :=
  ((routing_after_model_call (fun _ => Message.assistant "done" []) (fun _ => "")
      { messages := [Message.human "hi"] } 0).2 rfl).1

/-- C2: the model-calling step returns the input message sequence with
exactly one new message appended: the old sequence is a verbatim prefix
(every pre-existing message unmutated, in its original position) and the
length grows by one. -/
theorem call_llm_append_only
    (model : List Message → Message) (state : AgentState) :
    (call_llm model state).messages = state.messages ++ [model state.messages] ∧
    (call_llm model state).messages.length = state.messages.length + 1 ∧
    (call_llm model state).messages.take state.messages.length = state.messages := by
  refine ⟨rfl, by simp [call_llm], ?_⟩
  simp [call_llm]

/-- C4: the fallback model binding returns a syntactically valid assistant
message with non-empty text that reports the failure, carrying no
tool-call requests, and the control loop reaches its terminal state after
exactly one model call. -/
theorem fallback_llm_degrades_gracefully
    (err base_url : String) (exec : ToolCall → String)
    (state : AgentState) (fuel : Nat) :
    (fallback_generate err base_url state.messages).toolCalls = [] ∧
    (fallback_generate err base_url state.messages).content ≠ "" ∧
    runGraph (fallback_generate err base_url) exec (fuel + 1) state =
      some ({ messages :=
        state.messages ++ [fallback_generate err base_url state.messages] }, 1) ∧
    finalOutput { messages :=
        state.messages ++ [fallback_generate err base_url state.messages] } =
      fallback_content err base_url := by
  have hempty : (fallback_generate err base_url state.messages).toolCalls = [] := rfl
  refine ⟨hempty, ?_, runGraph_halts _ exec state fuel hempty,
    finalOutput_concat state.messages _⟩
  intro hcontra
  simp only [fallback_generate, Message.content] at hcontra
  have hlen := congrArg String.length hcontra
  simp only [fallback_content, String.length_append] at hlen
  have hA : 0 < String.length
      "\x7b\"error\": \"LLM unavailable\", \"details\": \"Failed to initialise ChatOllama. Error: " := by
    decide
  have h0 : String.length "" = 0 := rfl
  rw [h0] at hlen
  omega

/-! ### Association-list file systems

Both file-system models below (the operation-trace model for atomicity and
the whole-operation model for the tools) map paths to file contents through
a simple association list. -/

def alookup {κ : Type} [DecidableEq κ] (fs : List (κ × String)) (k : κ) : Option String :=
  match fs with
  | [] => none
  | (k2, v) :: rest => if k2 = k then some v else alookup rest k

def aset {κ : Type} [DecidableEq κ] (fs : List (κ × String)) (k : κ) (v : String) :
    List (κ × String) :=
  match fs with
  | [] => [(k, v)]
  | (k2, v2) :: rest => if k2 = k then (k, v) :: rest else (k2, v2) :: aset rest k v

def aerase {κ : Type} [DecidableEq κ] (fs : List (κ × String)) (k : κ) :
    List (κ × String) :=
  match fs with
  | [] => []
  | (k2, v2) :: rest => if k2 = k then aerase rest k else (k2, v2) :: aerase rest k

theorem alookup_aset_self {κ : Type} [DecidableEq κ] (fs : List (κ × String))
    (k : κ) (v : String) : alookup (aset fs k v) k = some v := by
  induction fs with
  | nil => simp [aset, alookup]
  | cons kv rest ih =>
    obtain ⟨k2, v2⟩ := kv
    by_cases h : k2 = k
    · subst h; simp [aset, alookup]
    · simp [aset, alookup, h, ih]

theorem alookup_aset_ne {κ : Type} [DecidableEq κ] (fs : List (κ × String))
    (k k2 : κ) (v : String) (h : k ≠ k2) :
    alookup (aset fs k v) k2 = alookup fs k2 := by
  induction fs with
  | nil => simp [aset, alookup, h]
  | cons kv rest ih =>
    obtain ⟨k3, v3⟩ := kv
    by_cases h3 : k3 = k
    · subst h3; simp [aset, alookup, h]
    · simp only [aset, if_neg h3, alookup]
      by_cases h4 : k3 = k2 <;> simp [h4, ih]

theorem alookup_aerase_ne {κ : Type} [DecidableEq κ] (fs : List (κ × String))
    (k k2 : κ) (h : k ≠ k2) : alookup (aerase fs k) k2 = alookup fs k2 := by
  induction fs with
  | nil => simp [aerase]
  | cons kv rest ih =>
    obtain ⟨k3, v3⟩ := kv
    by_cases h3 : k3 = k
    · subst h3; simp [aerase, alookup, h, ih]
    · simp only [aerase, if_neg h3, alookup]
      by_cases h4 : k3 = k2 <;> simp [h4, ih]

/-! ### file_generator.write_file — operation-trace model (for C3)

`pathlib.Path` paths are modelled as a stem plus the final suffix, which is
what `Path.with_suffix` manipulates: `with_suffix(s)` replaces the last
suffix by `s` (so `write_file`'s temporary file `target.with_suffix(".tmp")`
coincides with the target itself exactly when the target already ends in
`.tmp`).

A file write is broken into the primitive operations the Python code
performs, so that an interruption mid-write is "executing a prefix of the
operation trace":

* `Path.write_text` (used by `EditFileTool._edit_replace`) is
  `open(path, "w")` — which truncates/creates the file — followed by a
  write of the content;
* `write_file` is `mkdir(parents)`, the same truncate-and-write on the
  temporary path, then `tmp.replace(target)` — an atomic rename. -/

structure PPath where
  stem : String
  suffix : String
deriving DecidableEq, Repr

def PPath.withSuffix (p : PPath) (s : String) : PPath := { stem := p.stem, suffix := s }

inductive FsOp where
  | mkdirParents (dir : PPath)
  | openTrunc (p : PPath)
  | writeChunk (p : PPath) (s : String)
  | rename (src dst : PPath)
deriving DecidableEq, Repr

def applyOp (fs : List (PPath × String)) : FsOp → List (PPath × String)
  | .mkdirParents _ => fs
  | .openTrunc p => aset fs p ""
  | .writeChunk p s =>
    match alookup fs p with
    | some c => aset fs p (c ++ s)
    | none => aset fs p s
  | .rename src dst =>
    match alookup fs src with
    | some c => aset (aerase fs src) dst c
    | none => fs

def runOps (fs : List (PPath × String)) (ops : List FsOp) : List (PPath × String) :=
  ops.foldl applyOp fs

def tmpSuffix : String := ".tmp"

/-- file_generator.write_file: mkdir parents, write the content to
`target.with_suffix(".tmp")`, then atomically rename onto the target. -/
def write_file_ops (target : PPath) (content : String) : List FsOp :=
  [FsOp.mkdirParents target,
   FsOp.openTrunc (target.withSuffix tmpSuffix),
   FsOp.writeChunk (target.withSuffix tmpSuffix) content,
   FsOp.rename (target.withSuffix tmpSuffix) target]

/-- `Path.write_text`: truncate the target itself, then write the content. -/
def write_text_ops (p : PPath) (content : String) : List FsOp :=
  [FsOp.openTrunc p, FsOp.writeChunk p content]

/-- edit_file_tool.EditFileTool._edit_replace writes the target directly
with `path.write_text(content)`. -/
def edit_replace_ops (p : PPath) (content : String) : List FsOp :=
  write_text_ops p content

/-- After interrupting the operation trace at any point, the target holds
either the complete previous content (or previous absence) or the complete
new content. -/
def atomicWrite (ops : List FsOp) (fs0 : List (PPath × String))
    (target : PPath) (newContent : String) : Prop :=
  ∀ k, k ≤ ops.length →
    alookup (runOps fs0 (ops.take k)) target = alookup fs0 target ∨
    alookup (runOps fs0 (ops.take k)) target = some newContent

instance atomicWriteDecidable (ops : List FsOp) (fs0 : List (PPath × String))
    (target : PPath) (newContent : String) :
    Decidable (atomicWrite ops fs0 target newContent) :=
  Nat.decidableBallLE ops.length _

/-- C3 counterexample: the edit-file tool's replace mode is not an atomic
write.  Interrupting `write_text` after the truncating `open` leaves the
target empty — neither the old content "OLD" nor the new content "NEW". -/
theorem edit_replace_not_atomic :
    ¬ atomicWrite (edit_replace_ops ⟨"f", ".txt"⟩ "NEW")
        [(⟨"f", ".txt"⟩, "OLD")] ⟨"f", ".txt"⟩ "NEW" := by
  decide

/-- C3 (amended): the `write_file` helper does follow the atomic-write
discipline — for any target not itself ending in the temporary suffix,
interrupting its trace at any point leaves the target with either the full
previous content or the full new content. -/
theorem write_file_atomic (target : PPath) (content : String)
    (fs0 : List (PPath × String)) (hsuf : target.suffix ≠ tmpSuffix) :
    atomicWrite (write_file_ops target content) fs0 target content := by
  have htmp : target.withSuffix tmpSuffix ≠ target := by
    intro h
    exact hsuf (by rw [← congrArg PPath.suffix h]; rfl)
  intro k hk
  simp only [write_file_ops, List.length_cons, List.length_nil] at hk
  interval_cases k
  · exact Or.inl rfl
  · exact Or.inl rfl
  · exact Or.inl (by
      simp [runOps, write_file_ops, applyOp, alookup_aset_ne _ _ _ _ htmp])
  · exact Or.inl (by
      simp only [runOps, write_file_ops, List.take, List.foldl, applyOp,
        alookup_aset_self]
      rw [alookup_aset_ne _ _ _ _ htmp, alookup_aset_ne _ _ _ _ htmp])
  · refine Or.inr ?_
    simp only [runOps, write_file_ops, List.take, List.foldl, applyOp,
      alookup_aset_self]
    cases content
    rfl

/-- Witness for the amended C3 at a concrete target, old and new content. -/
theorem write_file_atomic_witness :
    PPath.suffix ⟨"f", ".txt"⟩ ≠ tmpSuffix ∧
    atomicWrite (write_file_ops ⟨"f", ".txt"⟩ "NEW")
      [(⟨"f", ".txt"⟩, "OLD")] ⟨"f", ".txt"⟩ "NEW" :=
  ⟨by decide, write_file_atomic ⟨"f", ".txt"⟩ "NEW" [(⟨"f", ".txt"⟩, "OLD")] (by decide)⟩

/-! ### The file tools (read_file_tool / new_file_tool / edit_file_tool)

Whole-operation model: the file system is an association list from path
strings to file contents (directories and OS-level failures other than the
backup copy are not modelled; `shutil.copy`'s possible failure is the
`copyOk` parameter).  `root / file_path` is modelled for non-empty relative
components.  `full_path.with_suffix(full_path.suffix + ".bak")` appends
`".bak"` to the path (the old suffix is kept as part of the new one).
Python messages containing single quotes are written with `\x27`. -/

abbrev FileSys := List (String × String)

structure FileObject where
  path : String
  contents : String
  status : String
deriving DecidableEq, Repr

def joinPath (root p : String) : String := root ++ "/" ++ p

/-- read_file_tool.ReadFileTool._run -/
def read_file_run (fs : FileSys) (root file_path : String) : String :=
  if file_path = "" then "❌ Error: \x27file_path\x27 cannot be empty."
  else
    match alookup fs (joinPath root file_path) with
    | none => "❌ Error: File not found at " ++ joinPath root file_path
    | some content => "Content of " ++ file_path ++ ":\n\n---\n" ++ content ++ "\n---"

/-- edit_file_tool.EditFileTool._backup_file: no backup if the file does
not exist; otherwise a best-effort `shutil.copy` to the sibling `.bak`
path, reporting `backup_failed` (without raising) when the copy fails. -/
def backup_file (copyOk : Bool) (fs : FileSys) (path : String) : String × FileSys :=
  match alookup fs path with
  | none => ("no_backup", fs)
  | some content =>
    if copyOk then ("backup_created", aset fs (path ++ ".bak") content)
    else ("backup_failed", fs)

def autogenStart : String := "<!-- AUTOGEN START -->"
def autogenEnd : String := "<!-- AUTOGEN END -->"

/-- Python `s.split(sep, 1)`: the part before the first occurrence of
`sep` and the remainder. -/
def splitOnce (s sep : String) : String × String :=
  match s.splitOn sep with
  | [] => (s, "")
  | [x] => (x, "")
  | x :: rest => (x, String.intercalate sep rest)

/-- Python `sub in s`. -/
def containsSub (s sub : String) : Bool := (s.splitOn sub).length > 1

/-- edit_file_tool.EditFileTool._edit_patch content computation. -/
def patch_full (original content : String) : String :=
  if containsSub original autogenStart && containsSub original autogenEnd then
    let pre := (splitOnce original autogenStart).1
    let rest := (splitOnce original autogenStart).2
    let post := (splitOnce rest autogenEnd).2
    pre ++ autogenStart ++ "\n" ++ content ++ "\n" ++ autogenEnd ++ post
  else original ++ "\n" ++ content

/-- edit_file_tool.EditFileTool._run: existence check, then backup, then
mode validation, then the mode's edit, re-reading the final contents. -/
def edit_file_run (copyOk : Bool) (fs : FileSys)
    (root file_path new_content mode : String) : (String × FileObject) × FileSys :=
  match alookup fs (joinPath root file_path) with
  | none =>
    (("❌ File not found: " ++ joinPath root file_path,
      ⟨joinPath root file_path, "", "error"⟩), fs)
  | some original =>
    let bk := backup_file copyOk fs (joinPath root file_path)
    if mode = "replace" ∨ mode = "append" ∨ mode = "patch" then
      let new_full :=
        if mode = "replace" then new_content
        else if mode = "append" then original ++ new_content
        else patch_full original new_content
      let status := "edited_" ++ mode
      let message0 := "✅ Successfully " ++ status ++ " " ++ joinPath root file_path
      let message :=
        if bk.1 = "backup_failed" then message0 ++ " (⚠️ Backup failed!)" else message0
      ((message, ⟨joinPath root file_path, new_full, status⟩),
       aset bk.2 (joinPath root file_path) new_full)
    else
      (("❌ Unknown mode: " ++ mode, ⟨joinPath root file_path, "", "error"⟩), bk.2)

/-- new_file_tool.NewFileTool._run: empty-path check first; existing
target without `overwrite` is an error; with `overwrite` a best-effort
backup precedes the write; then the content is written. -/
def new_file_run (copyOk : Bool) (fs : FileSys)
    (root file_path content : String) (overwrite : Bool) :
    (String × FileObject) × FileSys :=
  if file_path = "" then
    (("❌ Error: \x27file_path\x27 cannot be empty.", ⟨".", "", "error"⟩), fs)
  else
    match alookup fs (joinPath root file_path) with
    | some original =>
      if !overwrite then
        (("❌ File already exists: " ++ joinPath root file_path ++
            ". Use \x27overwrite=True\x27 to replace it.",
          ⟨joinPath root file_path, "", "error"⟩), fs)
      else
        let bk : String × FileSys :=
          if copyOk then
            ("backup_created", aset fs (joinPath root file_path ++ ".bak") original)
          else ("backup_failed", fs)
        let message0 := "✅ Successfully created " ++ joinPath root file_path
        let message :=
          if bk.1 = "backup_failed" then message0 ++ " (⚠️ Backup failed!)"
          else if bk.1 = "backup_created" then message0 ++ " (Original backed up)"
          else message0
        ((message, ⟨joinPath root file_path, content, "created"⟩),
         aset bk.2 (joinPath root file_path) content)
    | none =>
      (("✅ Successfully created " ++ joinPath root file_path,
        ⟨joinPath root file_path, content, "created"⟩),
       aset fs (joinPath root file_path) content)

theorem append_bak_ne (s : String) : s ++ ".bak" ≠ s := by
  intro h
  have hlen := congrArg String.length h
  rw [String.length_append] at hlen
  have h4 : String.length ".bak" = 4 := rfl
  omega

theorem alookup_aset_bak (fs : FileSys) (s v : String) :
    alookup (aset fs s v) (s ++ ".bak") = alookup fs (s ++ ".bak") :=
  alookup_aset_ne fs s (s ++ ".bak") v (Ne.symm (append_bak_ne s))

/-- Behaviour of the edit tool on an existing file with a valid mode,
split on whether the backup copy succeeds. -/
theorem edit_file_run_eq_of_exists (copyOk : Bool) (fs : FileSys)
    (root p nc mode original : String)
    (hexists : alookup fs (joinPath root p) = some original)
    (hmode : mode = "replace" ∨ mode = "append" ∨ mode = "patch") :
    edit_file_run copyOk fs root p nc mode =
      ((if copyOk then "✅ Successfully " ++ ("edited_" ++ mode) ++ " " ++ joinPath root p
        else "✅ Successfully " ++ ("edited_" ++ mode) ++ " " ++ joinPath root p ++
          " (⚠️ Backup failed!)",
        ⟨joinPath root p,
          if mode = "replace" then nc
          else if mode = "append" then original ++ nc
          else patch_full original nc,
          "edited_" ++ mode⟩),
       aset (if copyOk then aset fs (joinPath root p ++ ".bak") original else fs)
         (joinPath root p)
         (if mode = "replace" then nc
          else if mode = "append" then original ++ nc
          else patch_full original nc)) := by
  cases copyOk <;>
    simp [edit_file_run, backup_file, hexists, if_pos hmode]

/-- Behaviour of the new-file tool when overwriting an existing file,
split on whether the backup copy succeeds. -/
theorem new_file_run_eq_of_overwrite (copyOk : Bool) (fs : FileSys)
    (root p c original : String) (hp : p ≠ "")
    (hexists : alookup fs (joinPath root p) = some original) :
    new_file_run copyOk fs root p c true =
      ((if copyOk then "✅ Successfully created " ++ joinPath root p ++ " (Original backed up)"
        else "✅ Successfully created " ++ joinPath root p ++ " (⚠️ Backup failed!)",
        ⟨joinPath root p, c, "created"⟩),
       aset (if copyOk then aset fs (joinPath root p ++ ".bak") original else fs)
         (joinPath root p) c) := by
  cases copyOk <;>
    simp [new_file_run, hexists, if_neg hp]

/-- C6 counterexample: the new-file tool is a file-manipulation tool in
the registry, yet an invocation whose target file is missing returns a
success result with status "created", not an error-status result. -/
theorem new_file_missing_target_not_error :
    (new_file_run true [] "/r" "a.txt" "hi" false).1.2.status = "created" ∧
    ¬ (new_file_run true [] "/r" "a.txt" "hi" false).1.2.status = "error" := by
  decide

/-- C6 (amended): the tools whose operation requires the target to exist
(read-file, edit-file) return an error-status result — not an exception —
when the target file is missing (the edit tool also leaves the file system
untouched); and the tools that validate their path argument (read-file,
new-file) return an error-status result immediately on an empty path,
before any file-system side effect. -/
theorem missing_target_and_empty_path_errors
    (fs : FileSys) (root p c nc mode : String) (copyOk ow : Bool)
    (hp : p ≠ "") (hmissing : alookup fs (joinPath root p) = none) :
    read_file_run fs root p = "❌ Error: File not found at " ++ joinPath root p ∧
    edit_file_run copyOk fs root p nc mode =
      (("❌ File not found: " ++ joinPath root p,
        ⟨joinPath root p, "", "error"⟩), fs) ∧
    read_file_run fs root "" = "❌ Error: \x27file_path\x27 cannot be empty." ∧
    new_file_run copyOk fs root "" c ow =
      (("❌ Error: \x27file_path\x27 cannot be empty.", ⟨".", "", "error"⟩), fs) := by
  refine ⟨?_, ?_, rfl, rfl⟩
  · simp only [read_file_run, if_neg hp, hmissing]
  · simp only [edit_file_run, hmissing]

/-- Witness for the amended C6 on a concrete empty file system. -/
theorem missing_target_and_empty_path_errors_witness :
    ("a.txt" : String) ≠ "" ∧
    alookup ([] : FileSys) (joinPath "/r" "a.txt") = none ∧
    read_file_run [] "/r" "a.txt" =
      "❌ Error: File not found at " ++ joinPath "/r" "a.txt" :=
  ⟨by decide, rfl,
    (missing_target_and_empty_path_errors [] "/r" "a.txt" "c" "n" "replace" true false
      (by decide) rfl).1⟩

/-! ### notebook_tool.NotebookTool._run

The nbformat library is an external collaborator; its three operations
used by the tool are passed in as functions: `newMarkdownNb content` is
`nbformat.writes` of a fresh notebook holding one markdown cell,
`appendCell original content` is read-append-write on an existing
notebook's text, and `reads? content` is `nbformat.reads` (`some`
normalized text on success, `none` when it raises). -/

structure NbFormat where
  newMarkdownNb : String → String
  appendCell : String → String → String
  reads? : String → Option String

/-- notebook_tool.NotebookTool._run: create mode writes a fresh notebook
at the target with no existence check; append mode requires the notebook
to exist; replace mode writes the parsed content, or a fresh
markdown-cell notebook when parsing fails.  No branch takes a backup. -/
def notebook_run (nb : NbFormat) (fs : FileSys)
    (root file_path content mode : String) : (String × FileObject) × FileSys :=
  if mode = "create" then
    (("✅ Created notebook " ++ joinPath root file_path,
      ⟨joinPath root file_path, content, "created"⟩),
     aset fs (joinPath root file_path) (nb.newMarkdownNb content))
  else if mode = "append" then
    match alookup fs (joinPath root file_path) with
    | none =>
      (("❌ Notebook not found: " ++ joinPath root file_path,
        ⟨joinPath root file_path, "", "error"⟩), fs)
    | some original =>
      (("✅ Appended notebook " ++ joinPath root file_path,
        ⟨joinPath root file_path, content, "appended"⟩),
       aset fs (joinPath root file_path) (nb.appendCell original content))
  else if mode = "replace" then
    match nb.reads? content with
    | some normalized =>
      (("✅ Replaced notebook " ++ joinPath root file_path,
        ⟨joinPath root file_path, content, "replaced"⟩),
       aset fs (joinPath root file_path) normalized)
    | none =>
      (("✅ Replaced notebook " ++ joinPath root file_path,
        ⟨joinPath root file_path, content, "replaced"⟩),
       aset fs (joinPath root file_path) (nb.newMarkdownNb content))
  else
    (("❌ Unknown mode: " ++ mode, ⟨joinPath root file_path, "", "error"⟩), fs)

/-- C7 counterexample: the notebook tool is a file-mutating tool in the
registry whose create mode overwrites an existing notebook in place —
the previous content "OLD" is replaced by the freshly serialized notebook
— while no backup of the previous content is taken anywhere (the sibling
`.bak` path stays absent). -/
theorem notebook_create_overwrites_without_backup :
    (notebook_run ⟨fun c => "NB[" ++ c ++ "]", fun o c => o ++ c, fun _ => none⟩
        [(joinPath "/r" "n.ipynb", "OLD")] "/r" "n.ipynb" "hello" "create").1.2.status =
      "created" ∧
    alookup (notebook_run ⟨fun c => "NB[" ++ c ++ "]", fun o c => o ++ c, fun _ => none⟩
        [(joinPath "/r" "n.ipynb", "OLD")] "/r" "n.ipynb" "hello" "create").2
      (joinPath "/r" "n.ipynb") = some "NB[hello]" ∧
    ¬ alookup (notebook_run ⟨fun c => "NB[" ++ c ++ "]", fun o c => o ++ c, fun _ => none⟩
        [(joinPath "/r" "n.ipynb", "OLD")] "/r" "n.ipynb" "hello" "create").2
      (joinPath "/r" "n.ipynb") = some "OLD" ∧
    alookup (notebook_run ⟨fun c => "NB[" ++ c ++ "]", fun o c => o ++ c, fun _ => none⟩
        [(joinPath "/r" "n.ipynb", "OLD")] "/r" "n.ipynb" "hello" "create").2
      (joinPath "/r" "n.ipynb" ++ ".bak") = none := by
  decide

/-- C7 (amended): for the edit-file and new-file tools — the file-writing
tools implementing the copy-before-write contract — every invocation that
overwrites an existing file takes a best-effort backup of the previous
content at the sibling `.bak` path before the write; if the backup copy
fails, the failure is recorded in the returned status message but the
primary write still proceeds.  (The notebook tool overwrites existing
notebooks with no backup, and format-code rewrites files only through
external formatter subprocesses.) -/
theorem backup_before_overwrite
    (fs : FileSys) (root p nc c mode original : String) (copyOk : Bool)
    (hp : p ≠ "")
    (hexists : alookup fs (joinPath root p) = some original)
    (hmode : mode = "replace" ∨ mode = "append" ∨ mode = "patch") :
    (edit_file_run copyOk fs root p nc mode).1.2.status = "edited_" ++ mode ∧
    alookup (edit_file_run copyOk fs root p nc mode).2 (joinPath root p) =
      some (edit_file_run copyOk fs root p nc mode).1.2.contents ∧
    (copyOk = true →
      alookup (edit_file_run copyOk fs root p nc mode).2 (joinPath root p ++ ".bak") =
        some original) ∧
    (copyOk = false →
      (edit_file_run copyOk fs root p nc mode).1.1 =
        "✅ Successfully " ++ ("edited_" ++ mode) ++ " " ++ joinPath root p ++
          " (⚠️ Backup failed!)") ∧
    (new_file_run copyOk fs root p c true).1.2.status = "created" ∧
    alookup (new_file_run copyOk fs root p c true).2 (joinPath root p) = some c ∧
    (copyOk = true →
      alookup (new_file_run copyOk fs root p c true).2 (joinPath root p ++ ".bak") =
        some original) ∧
    (copyOk = false →
      (new_file_run copyOk fs root p c true).1.1 =
        "✅ Successfully created " ++ joinPath root p ++ " (⚠️ Backup failed!)") := by
  rw [edit_file_run_eq_of_exists copyOk fs root p nc mode original hexists hmode,
    new_file_run_eq_of_overwrite copyOk fs root p c original hp hexists]
  cases copyOk <;>
    simp [alookup_aset_self, alookup_aset_bak]

/-- Witness for C7: editing an existing file in replace mode with a
failing backup copy still performs the write and reports the failure. -/
theorem backup_before_overwrite_witness :
    (("a.txt" : String) ≠ "" ∧
      alookup [(joinPath "/r" "a.txt", "OLD")] (joinPath "/r" "a.txt") = some "OLD" ∧
      (("replace" : String) = "replace" ∨ ("replace" : String) = "append" ∨
        ("replace" : String) = "patch")) ∧
    (edit_file_run false [(joinPath "/r" "a.txt", "OLD")] "/r" "a.txt" "NEW" "replace").1.1 =
      "✅ Successfully " ++ ("edited_" ++ "replace") ++ " " ++ joinPath "/r" "a.txt" ++
        " (⚠️ Backup failed!)" :=
  ⟨⟨by decide, alookup_aset_self [] (joinPath "/r" "a.txt") "OLD" ▸ rfl, Or.inl rfl⟩,
    (backup_before_overwrite [(joinPath "/r" "a.txt", "OLD")] "/r" "a.txt" "NEW" "c"
      "replace" "OLD" false (by decide) rfl (Or.inl rfl)).2.2.2.1 rfl⟩

/-- C10: invoking the edit tool on an existing file with an unknown mode
returns an error-status result, leaves the target's contents unchanged,
and still creates the sibling `.bak` backup, because the backup step runs
before the mode is validated. -/
theorem edit_unknown_mode_error_but_backup
    (fs : FileSys) (root p nc mode original : String)
    (hexists : alookup fs (joinPath root p) = some original)
    (hmode : ¬ (mode = "replace" ∨ mode = "append" ∨ mode = "patch")) :
    (edit_file_run true fs root p nc mode).1.1 = "❌ Unknown mode: " ++ mode ∧
    (edit_file_run true fs root p nc mode).1.2.status = "error" ∧
    alookup (edit_file_run true fs root p nc mode).2 (joinPath root p) = some original ∧
    alookup (edit_file_run true fs root p nc mode).2 (joinPath root p ++ ".bak") =
      some original := by
  simp only [edit_file_run, backup_file, hexists, if_neg hmode, if_true]
  refine ⟨trivial, trivial, ?_, ?_⟩
  · rw [alookup_aset_ne _ _ _ _ (append_bak_ne (joinPath root p)), hexists]
  · exact alookup_aset_self _ _ _

/-- Witness for C10 at a concrete file system and the unknown mode
"rewrite". -/
theorem edit_unknown_mode_error_but_backup_witness :
    (alookup [(joinPath "/r" "a.txt", "OLD")] (joinPath "/r" "a.txt") = some "OLD" ∧
      ¬ (("rewrite" : String) = "replace" ∨ ("rewrite" : String) = "append" ∨
        ("rewrite" : String) = "patch")) ∧
    alookup (edit_file_run true [(joinPath "/r" "a.txt", "OLD")] "/r" "a.txt" "NEW"
        "rewrite").2 (joinPath "/r" "a.txt" ++ ".bak") = some "OLD" :=
  ⟨⟨rfl, by decide⟩,
    (edit_unknown_mode_error_but_backup [(joinPath "/r" "a.txt", "OLD")] "/r" "a.txt"
      "NEW" "rewrite" "OLD" rfl (by decide)).2.2.2⟩

/-! ### cli.py `chat` — command handling and one loop iteration

`conversation_state` starts as `{"messages": []}` and may become Python
`None`, modelled as `Option ChatState`.  `_handle_command` returns
`(continue_session, conversation_state_or_None)`; the loop body then
rebinds `conversation_state` to the returned value, skips the iteration if
it is `None`, and otherwise appends the `("human", input)` message and
invokes the agent. -/

abbrev ChatState := List (String × String)

/-- Python `str.lower()` (character-wise lowering over the contents). -/
def strToLower (s : String) : String := String.mk (s.data.map Char.toLower)

/-- cli.py `_handle_command`. -/
def handle_command (user_input : String) (conversation_state : Option ChatState) :
    Bool × Option ChatState :=
  if strToLower user_input = "exit" ∨ strToLower user_input = "quit" ∨
      strToLower user_input = "q" then (false, conversation_state)
  else if strToLower user_input = "help" then (true, none)
  else if strToLower user_input = "clear" then (true, none)
  else if strToLower user_input = "tools" then (true, none)
  else if user_input = "" then (true, none)
  else (true, conversation_state)

structure ChatStepResult where
  continueSession : Bool
  state : Option ChatState
  agentInvoked : Bool
deriving DecidableEq, Repr

/-- One iteration of the `while True` body in cli.py `chat`:
`cont, conversation_state = _handle_command(...)`, break when `cont` is
false, `continue` when the rebound state is `None`, otherwise append the
human message and invoke the agent (the invocation itself is abstracted;
`agentInvoked` records that it happens). -/
def chat_loop_step (conversation_state : Option ChatState) (user_input : String) :
    ChatStepResult :=
  let hc := handle_command user_input conversation_state
  if hc.1 = false then ⟨false, hc.2, false⟩
  else
    match hc.2 with
    | none => ⟨true, none, false⟩
    | some msgs => ⟨true, some (msgs ++ [("human", user_input)]), true⟩

/-- C5 (code bug): after `clear`, the shell's conversation state is
rebound to `None` — not reset to an empty message sequence — and every
subsequent non-empty, non-command input is swallowed without being
forwarded to the control loop (the loop treats the `None` state as a
handled command and skips the agent invocation). -/
theorem clear_then_input_is_swallowed :
    (chat_loop_step (some [("human", "hi"), ("assistant", "hello")]) "clear").state =
      none ∧
    ¬ (chat_loop_step (some [("human", "hi"), ("assistant", "hello")]) "clear").state =
      some [] ∧
    (chat_loop_step
      (chat_loop_step (some [("human", "hi"), ("assistant", "hello")]) "clear").state
      "list the files").agentInvoked = false ∧
    (chat_loop_step
      (chat_loop_step (some [("human", "hi"), ("assistant", "hello")]) "clear").state
      "list the files").state = none ∧
    (chat_loop_step (some [("human", "hi")]) "list the files").agentInvoked = true := by
  decide

/-! ### base_agent.create_default_tools

Embedded at the level of tool names, in the source's construction order;
the entries gated on the model handle are `None` when no handle is
supplied and are filtered out afterwards. -/

def standard_tools (hasLlm : Bool) : List (Option String) :=
  [some "read-file", some "edit-file",
   if hasLlm then some "search-explain" else none,
   some "linker", some "new-file",
   if hasLlm then some "generate-test" else none,
   some "format-code",
   if hasLlm then some "notebook" else none,
   if hasLlm then some "general-chat" else none,
   some "r-script"]

def create_default_tools (hasLlm : Bool) : List String :=
  (standard_tools hasLlm).filterMap id

/-- C8: with a model handle the registry contains the four model-requiring
tools (search-and-explain, test generation, notebook authoring, general
chat); without one, those four are exactly the tools omitted, every
model-independent tool is still present, and construction succeeds. -/
theorem create_default_tools_llm_gating :
    create_default_tools true =
      ["read-file", "edit-file", "search-explain", "linker", "new-file",
       "generate-test", "format-code", "notebook", "general-chat", "r-script"] ∧
    create_default_tools false =
      ["read-file", "edit-file", "linker", "new-file", "format-code", "r-script"] ∧
    ((create_default_tools false).all
      (fun n => (create_default_tools true).contains n)) = true ∧
    ((create_default_tools true).filter
      (fun n => !(create_default_tools false).contains n)) =
      ["search-explain", "generate-test", "notebook", "general-chat"] := by
  decide

/-! ### agents/persistent_agent.py — state persistence

The state file read at construction is modelled by its parse outcome
(`absent` / `unparsable` — any exception from `open`+`json.load` or from
`data.get` — / successfully `parsed`, with each of the two record fields
optional as in `data.get(key, default)`).  Printed warnings are modelled
as a returned flag.  The saving step's possible failure is the `writeOk`
parameter; the agent invocation inside `chat` is modelled by its outcome
(`Except`: normal response or raised exception). -/

inductive StateFile where
  | absent
  | unparsable
  | parsed (conversation_history : Option (List (String × String)))
           (settings : Option (List (String × String)))
deriving DecidableEq, Repr

structure LoadOutcome where
  conversation_history : List (String × String)
  settings : List (String × String)
  warned : Bool
deriving DecidableEq, Repr

/-- persistent_agent.PersistentAgent._load_state (together with the empty
initialisation in `__init__` that it refines). -/
def load_state : StateFile → LoadOutcome
  | .absent => ⟨[], [], false⟩
  | .unparsable => ⟨[], [], true⟩
  | .parsed h s => ⟨h.getD [], s.getD [], false⟩

/-- persistent_agent.PersistentAgent._save_state: returns whether the
"Could not save state" warning was printed; never raises. -/
def save_state (writeOk : Bool) : Bool := !writeOk

structure ChatOutcome where
  response : String
  conversation_history : List (String × String)
  saveWarned : Bool
deriving DecidableEq, Repr

/-- persistent_agent.PersistentAgent.chat: append the user message,
invoke the agent, append the assistant (or error) message, save the state
best-effort, and return the response. -/
def persistent_chat (agentResult : Except String String) (writeOk : Bool)
    (history : List (String × String)) (message : String) : ChatOutcome :=
  let history1 := history ++ [("user", message)]
  match agentResult with
  | .ok response_content =>
    ⟨response_content, history1 ++ [("assistant", response_content)],
     save_state writeOk⟩
  | .error e =>
    ⟨"❌ Error: " ++ e, history1 ++ [("error", "❌ Error: " ++ e)],
     save_state writeOk⟩

/-- C9 counterexample: when the persisted-state file is absent, loading
degrades to an empty history and settings but does NOT print a warning —
the warning is printed only when an existing file fails to parse. -/
theorem load_state_absent_is_silent :
    (load_state StateFile.absent).conversation_history = [] ∧
    (load_state StateFile.absent).settings = [] ∧
    ¬ (load_state StateFile.absent).warned = true := by
  decide

/-- C9 (amended): an absent state file degrades silently to an empty
history and settings; an unparsable one degrades to the same with a
printed warning; neither raises.  A failure while saving is reported as a
warning and the turn's response is still returned (for a normal agent
response and for a caught agent exception alike). -/
theorem persistence_degrades_gracefully
    (resp e message : String) (history : List (String × String)) :
    load_state StateFile.absent = ⟨[], [], false⟩ ∧
    load_state StateFile.unparsable = ⟨[], [], true⟩ ∧
    (persistent_chat (Except.ok resp) false history message).response = resp ∧
    (persistent_chat (Except.ok resp) false history message).saveWarned = true ∧
    (persistent_chat (Except.error e) false history message).response =
      "❌ Error: " ++ e ∧
    (persistent_chat (Except.error e) false history message).saveWarned = true ∧
    (persistent_chat (Except.ok resp) true history message).saveWarned = false := by
  exact ⟨rfl, rfl, rfl, rfl, rfl, rfl, rfl⟩

end CodeAgent
